import Mathlib

/-!
Verification of the imap-mailparse-read-mail repository.

The repository is a small Rust library (src/src/lib.rs) exposing
`read_mail`, which opens an IMAP session, fetches every message of a
selected folder with the peek fetch variant, and parses each raw message
into a `MyMessage` (from, subject, body) via `parse`.

The embedding below translates `parse` and `read_mail` into Lean.
External collaborators (the mailparse MIME primitives and the imap
session) are modelled from the specification, with doc comments marking
each modelled definition.
-/

/-- Errors of the parsing pipeline.  The Rust code returns
`Box<dyn Error>`: errors raised inside the external mailparse crate are
modelled by `mailparseError`, and the string errors raised by the
repository itself via `"...".into()` are modelled by `strError` carrying
the exact string literal from the source. -/
inductive ParseErr where
  | mailparseError (msg : String)
  | strError (msg : String)
deriving DecidableEq, Repr

/-- The content-type record of a MIME part (mailparse `ParsedContentType`);
only the `mimetype` field is used by the repository. -/
structure Ctype where
  mimetype : String
deriving DecidableEq, Repr

/-- Modelled from the spec: the MIME structure produced by the
MIME-parsing primitive (mailparse `ParsedMail`): headers, a content type,
a decoded body (`get_body` may fail inside the crate, hence `Except`),
and the immediate subparts. -/
inductive ParsedMail where
  | mk (headers : List (String × String)) (ctype : Ctype)
      (body : Except String String) (subparts : List ParsedMail)

def ParsedMail.headers : ParsedMail → List (String × String)
  | .mk h _ _ _ => h

def ParsedMail.ctype : ParsedMail → Ctype
  | .mk _ c _ _ => c

/-- mailparse `ParsedMail::get_body`: decodes the body content of this
part; failures come from the crate. -/
def ParsedMail.get_body : ParsedMail → Except String String
  | .mk _ _ b _ => b

def ParsedMail.subparts : ParsedMail → List ParsedMail
  | .mk _ _ _ s => s

/-- A single address entry (mailparse `SingleInfo`). -/
structure SingleInfo where
  display_name : Option String
  addr : String
deriving DecidableEq, Repr

/-- A group address entry (mailparse `GroupInfo`). -/
structure GroupInfo where
  group_name : String
  addrs : List SingleInfo
deriving DecidableEq, Repr

/-- mailparse `MailAddr`: either a single address or a group construct. -/
inductive MailAddr where
  | Single (info : SingleInfo)
  | Group (info : GroupInfo)
deriving DecidableEq, Repr

/-- The structured message built by the repository (`MyMessage` in
src/src/lib.rs).  The Rust field `from` is a Lean keyword, hence the
guillemets. -/
structure MyMessage where
  «from» : String
  subject : String
  body : String
deriving DecidableEq, Repr

/-- ASCII whitespace, the character class trimmed by the Rust string
trimming functions on the inputs this repository handles. -/
def wsChar (c : Char) : Bool :=
  c == ' ' || c == '\t' || c == '\n' || c == '\r'

/-- Model of Rust `str::trim_end`: remove trailing whitespace, keep
leading whitespace. -/
def trim_end (s : String) : String :=
  String.mk ((s.data.reverse.dropWhile wsChar).reverse)

/-- Model of Rust `str::trim`: remove leading and trailing whitespace. -/
def strTrim (s : String) : String :=
  String.mk (((s.data.dropWhile wsChar).reverse.dropWhile wsChar).reverse)

/-- Whether the string contains the character. -/
def strContains (s : String) (c : Char) : Bool :=
  s.data.contains c

/-- Whether the last character of the string is the given one. -/
def strEndsWithChar (s : String) (c : Char) : Bool :=
  match s.data.getLast? with
  | some d => d == c
  | none => false

/-- Split a character list on a separator character. -/
def splitOnCharAux (c : Char) : List Char → List Char → List (List Char)
  | [], acc => [acc.reverse]
  | x :: xs, acc =>
    if x == c then acc.reverse :: splitOnCharAux c xs []
    else splitOnCharAux c xs (x :: acc)

/-- Split a string on a separator character (model of `str::split` and
of `String.splitOn` with a one-character separator). -/
def strSplitOnChar (c : Char) (s : String) : List String :=
  (splitOnCharAux c s.data []).map String.mk

/-- Join strings with a separator character (inverse of the split). -/
def joinWithChar (c : Char) (parts : List String) : String :=
  String.mk (List.intercalate [c] (parts.map String.data))

/-- Lower-case every character of the string. -/
def strToLower (s : String) : String :=
  String.mk (s.data.map Char.toLower)

/-- mailparse `MailHeaderMap::get_first_value`: the value of the first
header whose key matches case-insensitively. -/
def get_first_value (headers : List (String × String)) (key : String) :
    Option String :=
  (headers.find? (fun h => strToLower h.1 = strToLower key)).map (fun h => h.2)

/-- Modelled from the spec: the address-parsing primitive (mailparse
`addrparse`), an external collaborator.  It parses a header value into a
structured address list: an empty value yields an empty list, a value
with a colon and a trailing semicolon is a group construct, an
angle-bracket form yields a single address with a display name, a plain
value containing an at sign yields a single plain address with no
display name, and anything else fails. -/
def addrparse (s : String) : Except String (List MailAddr) :=
  let t := strTrim s
  if t = "" then .ok []
  else if strContains t ':' && strEndsWithChar t ';' then
    .ok [MailAddr.Group ⟨strTrim ((strSplitOnChar ':' t).headD ""), []⟩]
  else if strContains t '<' then
    match strSplitOnChar '<' t with
    | [name, rest] =>
      if strEndsWithChar rest '>' then
        .ok [MailAddr.Single
          ⟨if strTrim name = "" then none else some (strTrim name),
           strTrim (String.mk rest.data.dropLast)⟩]
      else .error "unexpected character in address"
    | _ => .error "unexpected character in address"
  else if strContains t '@' then .ok [MailAddr.Single ⟨none, t⟩]
  else .error "unable to parse address"

/-- Interpret raw bytes as a string, one character per byte. -/
def bytesToString (raw : List Nat) : String :=
  String.mk (raw.map (fun b => Char.ofNat b))

/-- Split the lines of a raw message into the header pairs and the body
lines: header lines of the form `Name: value` up to the first blank
line; a header line without a colon is a malformed message. -/
def parseHeaderLines : List String → Except String (List (String × String) × List String)
  | [] => .ok ([], [])
  | l :: rest =>
    if l = "" then .ok ([], rest)
    else
      match strSplitOnChar ':' l with
      | name :: v1 :: vs =>
        match parseHeaderLines rest with
        | .error e => .error e
        | .ok (hs, body) =>
          .ok ((name, strTrim (joinWithChar ':' (v1 :: vs))) :: hs, body)
      | _ => .error "malformed header line"

/-- Modelled from the spec: the MIME-parsing primitive (mailparse
`parse_mail`), an external collaborator.  It decodes raw bytes into a
MIME structure (headers, a blank line, then the body) and fails when the
structure cannot be decoded at all.  The multipart decoder of the crate
is not reproduced here (this model always yields an empty subpart list);
the repository logic over multipart structures is stated directly on
`ParsedMail` values. -/
def parse_mail (raw : List Nat) : Except String ParsedMail :=
  let lines := (strSplitOnChar '\n' (bytesToString raw)).map
    (fun l => if strEndsWithChar l '\r' then String.mk l.data.dropLast else l)
  match parseHeaderLines lines with
  | .error e => .error e
  | .ok (headers, bodyLines) =>
    let mimetype :=
      match get_first_value headers "Content-Type" with
      | some v => strToLower (strTrim ((strSplitOnChar ';' v).headD v))
      | none => "text/plain"
    .ok (.mk headers ⟨mimetype⟩ (.ok (joinWithChar '\n' bodyLines)) [])

/-- The body of the repository function `parse` after the initial
`parse_mail` call (src/src/lib.rs lines 66 to 103): extract the sender
from the `From` header, the subject from the `Subject` header, and the
body from the message itself or, for a multipart message, from the
first immediate subpart whose mimetype is exactly `text/plain`,
trimming trailing whitespace. -/
def parseMail (parsed_mail : ParsedMail) : Except ParseErr MyMessage :=
  match get_first_value parsed_mail.headers "From" with
  | none => .error (.strError "no From header(1)")
  | some fv =>
    match addrparse fv with
    | .error e => .error (.mailparseError e)
    | .ok addrs =>
      match addrs.head? with
      | none => .error (.strError "no From header(2)")
      | some a =>
        match a with
        | .Group _ => .error (.strError "no From header(3)")
        | .Single info =>
          match get_first_value parsed_mail.headers "Subject" with
          | none => .error (.strError "no Subject header")
          | some subject =>
            let text_mail :=
              if parsed_mail.subparts.isEmpty then some parsed_mail
              else parsed_mail.subparts.find?
                (fun x => x.ctype.mimetype = "text/plain")
            match text_mail with
            | none => .error (.strError "no text/plain parts")
            | some t =>
              match t.get_body with
              | .error e => .error (.mailparseError e)
              | .ok b => .ok ⟨info.addr, subject, trim_end b⟩

/-- The repository function `parse` (src/src/lib.rs lines 64 to 103):
decode the raw bytes into a MIME structure, then extract the three
fields. -/
def parse (raw_data : List Nat) : Except ParseErr MyMessage :=
  match parse_mail raw_data with
  | .error e => .error (.mailparseError e)
  | .ok pm => parseMail pm

/-- The caller-supplied mailbox configuration (`MyMailbox` in
src/src/lib.rs). -/
structure MyMailbox where
  host : String
  port : Nat
  user : String
  password : String
  selection : String
deriving DecidableEq, Repr

/-- The `Default` instance of `MyMailbox` from the source: empty
credentials, port 993, folder INBOX. -/
def MyMailbox.default : MyMailbox :=
  { host := "", port := 993, user := "", password := "", selection := "INBOX" }

/-- Modelled from the spec: one message as stored on the IMAP server: a
session-scoped unique identifier, the raw bytes, and the read/unread
(seen) flag that a non-peek fetch would set. -/
structure ServerMsg where
  uid : Nat
  raw : List Nat
  seen : Bool
deriving DecidableEq, Repr

/-- Modelled from the spec: the observable state of the remote server as
seen by one session: whether the transport and the credentials are
accepted, and the named folders with their messages. -/
structure World where
  connectOk : Bool
  loginOk : Bool
  folders : List (String × List ServerMsg)
deriving DecidableEq, Repr

/-- Look up a folder by name (the `select` step). -/
def lookupFolder (w : World) (name : String) : Option (List ServerMsg) :=
  (w.folders.find? (fun f => f.1 = name)).map (fun f => f.2)

/-- Replace the contents of the first folder with the given name. -/
def storeFolder : List (String × List ServerMsg) → String → List ServerMsg →
    List (String × List ServerMsg)
  | [], _, _ => []
  | f :: fs, name, msgs =>
    if f.1 = name then (f.1, msgs) :: fs else f :: storeFolder fs name msgs

/-- Mark the message with the given uid as seen. -/
def markSeen (folder : List ServerMsg) (uid : Nat) : List ServerMsg :=
  folder.map (fun m => if m.uid = uid then { m with seen := true } else m)

/-- Modelled from the spec: the fetch-by-identifier operation of the
protocol session (`uid_fetch`).  It returns the messages matching the
uid, and mutates the folder state: the peek fetch variant
`BODY.PEEK[]` leaves the read/unread flag unchanged, while any other
query (such as `RFC822`) implicitly marks the message as read. -/
def uid_fetch (folder : List ServerMsg) (uid : Nat) (query : String) :
    List ServerMsg × List ServerMsg :=
  (folder.filter (fun m => m.uid = uid),
   if query = "BODY.PEEK[]" then folder else markSeen folder uid)

/-- Why a run of `read_mail` aborts with a panic inside the fetch loop:
`messages.iter().next().unwrap()` on an empty fetch result, or
`parse(...).unwrap()` on a message that fails to parse. -/
inductive PanicReason where
  | emptyFetch (uid : Nat)
  | parseFailed (uid : Nat) (e : ParseErr)
deriving DecidableEq, Repr

/-- The observable outcome of a call to `read_mail`: a normal return
with the message list, an error propagated with the question-mark
operator, or a panic raised by an `unwrap` in the fetch loop. -/
inductive RunResult where
  | ok (msgs : List MyMessage)
  | err (e : String)
  | panic (r : PanicReason)
deriving DecidableEq, Repr

/-- The fetch loop of `read_mail` (src/src/lib.rs lines 46 to 56): for
each uid, fetch with the given query, take the first returned message
(`unwrap`: panic when there is none), and parse its body (`unwrap`:
panic when parsing fails), threading the folder state through the
fetches. -/
def fetchLoop (query : String) :
    List Nat → List ServerMsg → Except PanicReason (List MyMessage) × List ServerMsg
  | [], folder => (.ok [], folder)
  | uid :: rest, folder =>
    let fetched := uid_fetch folder uid query
    match fetched.1.head? with
    | none => (.error (.emptyFetch uid), fetched.2)
    | some m =>
      match parse m.raw with
      | .error e => (.error (.parseFailed uid e), fetched.2)
      | .ok msg =>
        match fetchLoop query rest fetched.2 with
        | (.ok msgs, folder2) => (.ok (msg :: msgs), folder2)
        | (.error r, folder2) => (.error r, folder2)

/-- The repository function `read_mail` (src/src/lib.rs lines 29 to 62):
connect over TLS, log in, select the configured folder, search for all
uids, fetch and parse every message with the peek query, and log out.
The connect, login and select steps are modelled from the spec (the
imap crate is an external collaborator); the returned triple is the
outcome, the final server state, and whether logout was performed. -/
def read_mail (mailbox : MyMailbox) (w : World) : RunResult × World × Bool :=
  if !w.connectOk then (.err "TransportError", w, false)
  else if !w.loginOk then (.err "AuthError", w, false)
  else
    match lookupFolder w mailbox.selection with
    | none => (.err "FolderError", w, false)
    | some folder =>
      let uids := folder.map (fun m => m.uid)
      match fetchLoop "BODY.PEEK[]" uids folder with
      | (.ok msgs, folder2) =>
        (.ok msgs, { w with folders := storeFolder w.folders mailbox.selection folder2 }, true)
      | (.error r, folder2) =>
        (.panic r, { w with folders := storeFolder w.folders mailbox.selection folder2 }, false)

instance {ε α : Type} [DecidableEq ε] [DecidableEq α] : DecidableEq (Except ε α) :=
  fun a b =>
    match a, b with
    | .error e, .error f => decidable_of_iff (e = f) (by simp)
    | .error _, .ok _ => isFalse (by simp)
    | .ok _, .error _ => isFalse (by simp)
    | .ok x, .ok y => decidable_of_iff (x = y) (by simp)

/-- The first element of `pre ++ p :: post` satisfying `f` is `p` when no
element of `pre` satisfies `f` and `p` does. -/
theorem find_first_match {α : Type} (f : α → Bool) :
    ∀ (pre : List α) (p : α) (post : List α),
      (∀ q ∈ pre, f q = false) → f p = true →
      (pre ++ p :: post).find? f = some p := by
  intro pre p post hpre hp
  induction pre with
  | nil => simp [List.find?, hp]
  | cons q rest ih =>
    have hq : f q = false := hpre q (by simp)
    simp only [List.cons_append, List.find?, hq]
    exact ih (fun x hx => hpre x (by simp [hx]))

theorem uid_fetch_peek (folder : List ServerMsg) (uid : Nat) :
    uid_fetch folder uid "BODY.PEEK[]" =
      (folder.filter (fun m => m.uid = uid), folder) := by
  unfold uid_fetch
  rw [if_pos rfl]

theorem fetchLoop_peek_state : ∀ (uids : List Nat) (folder : List ServerMsg),
    (fetchLoop "BODY.PEEK[]" uids folder).2 = folder := by
  intro uids
  induction uids with
  | nil => intro folder; rfl
  | cons uid rest ih =>
    intro folder
    simp only [fetchLoop, uid_fetch_peek]
    split
    · rfl
    split
    · rfl
    rcases hloop : fetchLoop "BODY.PEEK[]" rest folder with ⟨res, f2⟩
    have hf2 : f2 = folder := by
      have := ih folder
      rw [hloop] at this
      exact this
    cases res <;> simp [hf2]

theorem storeFolder_lookup (fs : List (String × List ServerMsg)) (name : String)
    (msgs : List ServerMsg)
    (h : (fs.find? (fun f => f.1 = name)).map (fun f => f.2) = some msgs) :
    storeFolder fs name msgs = fs := by
  induction fs with
  | nil => exact Option.noConfusion h
  | cons f rest ih =>
    by_cases hf : f.1 = name
    · rw [List.find?_cons_of_pos _ (by simpa using hf)] at h
      simp at h
      unfold storeFolder
      rw [if_pos hf]
      cases h
      rfl
    · rw [List.find?_cons_of_neg _ (by simpa using hf)] at h
      unfold storeFolder
      rw [if_neg hf, ih h]

theorem fetchLoop_fail (uid : Nat) (m : ServerMsg) (e : ParseErr) :
    ∀ (uids : List Nat) (folder : List ServerMsg),
      uid ∈ uids →
      (folder.filter (fun x => x.uid = uid)).head? = some m →
      parse m.raw = Except.error e →
      ∃ r, (fetchLoop "BODY.PEEK[]" uids folder).1 = Except.error r := by
  intro uids
  induction uids with
  | nil =>
    intro folder hmem
    simp at hmem
  | cons u rest ih =>
    intro folder hmem hhead hp
    rcases List.mem_cons.mp hmem with huid | hmem2
    · subst huid
      refine ⟨PanicReason.parseFailed uid e, ?_⟩
      simp only [fetchLoop, uid_fetch_peek, hhead, hp]
    · simp only [fetchLoop, uid_fetch_peek]
      cases hh : (folder.filter (fun x => x.uid = u)).head? with
      | none => exact ⟨PanicReason.emptyFetch u, rfl⟩
      | some m2 =>
        cases hpm : parse m2.raw with
        | error e2 => exact ⟨PanicReason.parseFailed u e2, by simp [hpm]⟩
        | ok msg =>
          obtain ⟨r, hr⟩ := ih folder hmem2 hhead hp
          rcases hloop : fetchLoop "BODY.PEEK[]" rest folder with ⟨res, f2⟩
          rw [hloop] at hr
          simp only at hr
          subst hr
          exact ⟨r, by simp [hpm]⟩

/-- Claim C3: for a multipart message (non-empty subpart list), once the
sender and subject extractions succeed, parse scans only the immediate
subparts in order: if none of them has content type exactly text/plain
it fails with the no-plain-text-part error (regardless of any nested
parts), and otherwise the body is taken from the first text/plain
subpart. -/
theorem parse_multipart_first_plaintext (pm : ParsedMail)
    (fv : String) (info : SingleInfo) (rest : List MailAddr) (sv : String)
    (hs : pm.subparts ≠ [])
    (hF : get_first_value pm.headers "From" = some fv)
    (hA : addrparse fv = Except.ok (MailAddr.Single info :: rest))
    (hS : get_first_value pm.headers "Subject" = some sv) :
    ((∀ p ∈ pm.subparts, p.ctype.mimetype ≠ "text/plain") →
      parseMail pm = Except.error (ParseErr.strError "no text/plain parts")) ∧
    (∀ pre p post s, pm.subparts = pre ++ p :: post →
      (∀ q ∈ pre, q.ctype.mimetype ≠ "text/plain") →
      p.ctype.mimetype = "text/plain" → p.get_body = Except.ok s →
      parseMail pm = Except.ok ⟨info.addr, sv, trim_end s⟩) := by
  have he : pm.subparts.isEmpty = false := by
    cases h' : pm.subparts with
    | nil => exact absurd h' hs
    | cons a l => rfl
  constructor
  · intro hnone
    have hfind : pm.subparts.find? (fun x => x.ctype.mimetype = "text/plain") = none := by
      rw [List.find?_eq_none]
      intro x hx
      simpa using hnone x hx
    simp only [parseMail, hF, hA, List.head?_cons, hS, he, Bool.false_eq_true,
      if_false, hfind]
  · intro pre p post s hsplit hpre hp hb
    have hfind : pm.subparts.find? (fun x => x.ctype.mimetype = "text/plain") = some p := by
      rw [hsplit]
      exact find_first_match _ pre p post
        (fun q hq => by simpa using hpre q hq) (by simpa using hp)
    simp only [parseMail, hF, hA, List.head?_cons, hS, he, Bool.false_eq_true,
      if_false, hfind, hb]

/-- Witness for claim C3: a multipart message whose only text/plain part
sits inside a nested multipart subpart is rejected (no recursion), and
with immediate parts html, plain, plain the body comes from the first
text/plain part. -/
theorem parse_multipart_first_plaintext_witness :
    parseMail (ParsedMail.mk [("From", "user@example.com"), ("Subject", "hi")]
        ⟨"multipart/mixed"⟩ (Except.ok "")
        [ParsedMail.mk [] ⟨"text/html"⟩ (Except.ok "<p>x</p>") [],
         ParsedMail.mk [] ⟨"multipart/alternative"⟩ (Except.ok "")
           [ParsedMail.mk [] ⟨"text/plain"⟩ (Except.ok "hidden") []]]) =
      Except.error (ParseErr.strError "no text/plain parts") ∧
    parseMail (ParsedMail.mk [("From", "user@example.com"), ("Subject", "hi")]
        ⟨"multipart/mixed"⟩ (Except.ok "")
        [ParsedMail.mk [] ⟨"text/html"⟩ (Except.ok "<p>x</p>") [],
         ParsedMail.mk [] ⟨"text/plain"⟩ (Except.ok "first\n") [],
         ParsedMail.mk [] ⟨"text/plain"⟩ (Except.ok "second") []]) =
      Except.ok ⟨"user@example.com", "hi", trim_end "first\n"⟩ := by
  constructor
  · exact (parse_multipart_first_plaintext
      (ParsedMail.mk [("From", "user@example.com"), ("Subject", "hi")]
        ⟨"multipart/mixed"⟩ (Except.ok "")
        [ParsedMail.mk [] ⟨"text/html"⟩ (Except.ok "<p>x</p>") [],
         ParsedMail.mk [] ⟨"multipart/alternative"⟩ (Except.ok "")
           [ParsedMail.mk [] ⟨"text/plain"⟩ (Except.ok "hidden") []]])
      "user@example.com" ⟨none, "user@example.com"⟩ [] "hi"
      (fun hcon => List.noConfusion hcon) (by decide) (by decide) (by decide)).1
      (by decide)
  · exact (parse_multipart_first_plaintext
      (ParsedMail.mk [("From", "user@example.com"), ("Subject", "hi")]
        ⟨"multipart/mixed"⟩ (Except.ok "")
        [ParsedMail.mk [] ⟨"text/html"⟩ (Except.ok "<p>x</p>") [],
         ParsedMail.mk [] ⟨"text/plain"⟩ (Except.ok "first\n") [],
         ParsedMail.mk [] ⟨"text/plain"⟩ (Except.ok "second") []])
      "user@example.com" ⟨none, "user@example.com"⟩ [] "hi"
      (fun hcon => List.noConfusion hcon) (by decide) (by decide) (by decide)).2
      [ParsedMail.mk [] ⟨"text/html"⟩ (Except.ok "<p>x</p>") []]
      (ParsedMail.mk [] ⟨"text/plain"⟩ (Except.ok "first\n") [])
      [ParsedMail.mk [] ⟨"text/plain"⟩ (Except.ok "second") []]
      "first\n" rfl (by decide) (by decide) rfl

/-- Claim C4: for every message that parse accepts, the returned body is
the selected part's decoded content with trailing whitespace removed
(the selected part being the message itself when there are no subparts,
or the first text/plain subpart otherwise), and trimming removes only
trailing whitespace: "hello\n\n" becomes "hello" while "  hello\n"
keeps its leading spaces. -/
theorem parse_body_trim_trailing (pm : ParsedMail) (msg : MyMessage)
    (h : parseMail pm = Except.ok msg) :
    (∃ t s, ((pm.subparts = [] ∧ t = pm) ∨
             pm.subparts.find? (fun x => x.ctype.mimetype = "text/plain") = some t) ∧
            t.get_body = Except.ok s ∧ msg.body = trim_end s) ∧
    trim_end "hello\n\n" = "hello" ∧ trim_end "  hello\n" = "  hello" := by
  refine ⟨?_, by decide, by decide⟩
  unfold parseMail at h
  split at h
  · cases h
  rename_i fv hF
  split at h
  · cases h
  rename_i addrs hA
  split at h
  · cases h
  rename_i a hhead
  split at h
  · cases h
  rename_i info
  split at h
  · cases h
  rename_i sv hS
  split at h
  · rename_i he
    simp only [] at h
    split at h
    · cases h
    rename_i b hB
    cases h
    exact ⟨pm, b, Or.inl ⟨List.isEmpty_iff.mp he, rfl⟩, hB, rfl⟩
  · rename_i he
    simp only [] at h
    split at h
    · cases h
    rename_i t hT
    split at h
    · cases h
    rename_i b hB
    cases h
    exact ⟨t, b, Or.inr hT, hB, rfl⟩

/-- Witness for claim C4: a single-part message with body "hello\n\n"
parses to the body "hello". -/
theorem parse_body_trim_trailing_witness :
    (∃ t s, (((ParsedMail.mk [("From", "user@example.com"), ("Subject", "hi")]
          ⟨"text/plain"⟩ (Except.ok "hello\n\n") []).subparts = [] ∧
         t = ParsedMail.mk [("From", "user@example.com"), ("Subject", "hi")]
          ⟨"text/plain"⟩ (Except.ok "hello\n\n") []) ∨
        (ParsedMail.mk [("From", "user@example.com"), ("Subject", "hi")]
          ⟨"text/plain"⟩ (Except.ok "hello\n\n") []).subparts.find?
            (fun x => x.ctype.mimetype = "text/plain") = some t) ∧
       t.get_body = Except.ok s ∧
       (MyMessage.mk "user@example.com" "hi" "hello").body = trim_end s) ∧
    trim_end "hello\n\n" = "hello" ∧ trim_end "  hello\n" = "  hello" :=
  parse_body_trim_trailing
    (ParsedMail.mk [("From", "user@example.com"), ("Subject", "hi")]
      ⟨"text/plain"⟩ (Except.ok "hello\n\n") [])
    (MyMessage.mk "user@example.com" "hi" "hello") (by decide)

/-- Claim C5: when the From header holds the single plain address
user@example.com, the extracted sender is exactly that string (no
display name, no angle brackets); when the From header is absent parse
fails with the missing-From error, when the address list is unparsable
it fails with the address-parse error, when the list is empty it fails
with the empty-list error, and when the first entry is a group it fails
with the unsupported-form error. -/
theorem parse_sender_extraction (pm : ParsedMail) :
    (get_first_value pm.headers "From" = none →
      parseMail pm = Except.error (ParseErr.strError "no From header(1)")) ∧
    (∀ fv e, get_first_value pm.headers "From" = some fv →
      addrparse fv = Except.error e →
      parseMail pm = Except.error (ParseErr.mailparseError e)) ∧
    (∀ fv, get_first_value pm.headers "From" = some fv →
      addrparse fv = Except.ok [] →
      parseMail pm = Except.error (ParseErr.strError "no From header(2)")) ∧
    (∀ fv g rest, get_first_value pm.headers "From" = some fv →
      addrparse fv = Except.ok (MailAddr.Group g :: rest) →
      parseMail pm = Except.error (ParseErr.strError "no From header(3)")) ∧
    (∀ msg, get_first_value pm.headers "From" = some "user@example.com" →
      parseMail pm = Except.ok msg → msg.«from» = "user@example.com") := by
  refine ⟨?_, ?_, ?_, ?_, ?_⟩
  · intro hF
    simp only [parseMail, hF]
  · intro fv e hF hA
    simp only [parseMail, hF, hA]
  · intro fv hF hA
    simp only [parseMail, hF, hA, List.head?_nil]
  · intro fv g rest hF hA
    simp only [parseMail, hF, hA, List.head?_cons]
  · intro msg hF h
    have hA : addrparse "user@example.com" =
        Except.ok [MailAddr.Single ⟨none, "user@example.com"⟩] := by decide
    unfold parseMail at h
    simp only [hF, hA, List.head?_cons] at h
    split at h
    · cases h
    rename_i sv hS
    split at h
    · cases h
    rename_i t hT
    split at h
    · cases h
    rename_i b hB
    cases h
    rfl

/-- Witness for claim C5: the four failure shapes on concrete messages,
and the sender extracted from a plain user@example.com From header. -/
theorem parse_sender_extraction_witness :
    parseMail (ParsedMail.mk [("Subject", "s")] ⟨"text/plain"⟩ (Except.ok "b") []) =
      Except.error (ParseErr.strError "no From header(1)") ∧
    parseMail (ParsedMail.mk [("From", "not an address"), ("Subject", "s")]
        ⟨"text/plain"⟩ (Except.ok "b") []) =
      Except.error (ParseErr.mailparseError "unable to parse address") ∧
    parseMail (ParsedMail.mk [("From", ""), ("Subject", "s")]
        ⟨"text/plain"⟩ (Except.ok "b") []) =
      Except.error (ParseErr.strError "no From header(2)") ∧
    parseMail (ParsedMail.mk [("From", "team: a@example.com;"), ("Subject", "s")]
        ⟨"text/plain"⟩ (Except.ok "b") []) =
      Except.error (ParseErr.strError "no From header(3)") ∧
    (MyMessage.mk "user@example.com" "s" "b").«from» = "user@example.com" := by
  refine ⟨?_, ?_, ?_, ?_, ?_⟩
  · exact (parse_sender_extraction
      (ParsedMail.mk [("Subject", "s")] ⟨"text/plain"⟩ (Except.ok "b") [])).1
      (by decide)
  · exact (parse_sender_extraction
      (ParsedMail.mk [("From", "not an address"), ("Subject", "s")]
        ⟨"text/plain"⟩ (Except.ok "b") [])).2.1
      "not an address" "unable to parse address" (by decide) (by decide)
  · exact (parse_sender_extraction
      (ParsedMail.mk [("From", ""), ("Subject", "s")]
        ⟨"text/plain"⟩ (Except.ok "b") [])).2.2.1 "" (by decide) (by decide)
  · exact (parse_sender_extraction
      (ParsedMail.mk [("From", "team: a@example.com;"), ("Subject", "s")]
        ⟨"text/plain"⟩ (Except.ok "b") [])).2.2.2.1
      "team: a@example.com;" ⟨"team", []⟩ [] (by decide) (by decide)
  · exact (parse_sender_extraction
      (ParsedMail.mk [("From", "user@example.com"), ("Subject", "s")]
        ⟨"text/plain"⟩ (Except.ok "b") [])).2.2.2.2
      (MyMessage.mk "user@example.com" "s" "b") (by decide) (by decide)

/-- Claim C6: a message without a Subject header fails with the
missing-Subject error (once sender extraction has succeeded) and
produces no Message; when the header is present, its raw first value is
returned unchanged as the subject. -/
theorem parse_subject_extraction (pm : ParsedMail) :
    (∀ fv info rest, get_first_value pm.headers "From" = some fv →
      addrparse fv = Except.ok (MailAddr.Single info :: rest) →
      get_first_value pm.headers "Subject" = none →
      parseMail pm = Except.error (ParseErr.strError "no Subject header")) ∧
    (∀ sv msg, get_first_value pm.headers "Subject" = some sv →
      parseMail pm = Except.ok msg → msg.subject = sv) := by
  constructor
  · intro fv info rest hF hA hS
    simp only [parseMail, hF, hA, List.head?_cons, hS]
  · intro sv msg hS h
    unfold parseMail at h
    split at h
    · cases h
    rename_i fv hF
    split at h
    · cases h
    rename_i addrs hA
    split at h
    · cases h
    rename_i a hhead
    split at h
    · cases h
    rename_i info
    split at h
    · cases h
    rename_i sv2 hS2
    rw [hS] at hS2
    cases hS2
    split at h
    · rename_i he
      simp only [] at h
      split at h
      · cases h
      rename_i b hB
      cases h
      rfl
    · rename_i he
      simp only [] at h
      split at h
      · cases h
      rename_i t hT
      split at h
      · cases h
      rename_i b hB
      cases h
      rfl

/-- Witness for claim C6: a message with From but no Subject is rejected
with the missing-Subject error, and a present Subject value is returned
verbatim. -/
theorem parse_subject_extraction_witness :
    parseMail (ParsedMail.mk [("From", "user@example.com")] ⟨"text/plain"⟩
        (Except.ok "b") []) =
      Except.error (ParseErr.strError "no Subject header") ∧
    (MyMessage.mk "user@example.com" "Re: hello" "b").subject = "Re: hello" := by
  constructor
  · exact (parse_subject_extraction
      (ParsedMail.mk [("From", "user@example.com")] ⟨"text/plain"⟩
        (Except.ok "b") [])).1
      "user@example.com" ⟨none, "user@example.com"⟩ []
      (by decide) (by decide) (by decide)
  · exact (parse_subject_extraction
      (ParsedMail.mk [("From", "user@example.com"), ("Subject", "Re: hello")]
        ⟨"text/plain"⟩ (Except.ok "b") [])).2 "Re: hello"
      (MyMessage.mk "user@example.com" "Re: hello" "b") (by decide) (by decide)

/-- Claim C9: a message with no subparts can never fail with the
no-plain-text-part error: its own content is the body candidate
whatever its content type, so a single-part message (for instance
text/html) parses successfully once the other extractions succeed. -/
theorem parse_single_part_no_plaintext_error (pm : ParsedMail) :
    (pm.subparts = [] →
      parseMail pm ≠ Except.error (ParseErr.strError "no text/plain parts")) ∧
    (∀ fv info rest sv b, pm.subparts = [] →
      get_first_value pm.headers "From" = some fv →
      addrparse fv = Except.ok (MailAddr.Single info :: rest) →
      get_first_value pm.headers "Subject" = some sv →
      pm.get_body = Except.ok b →
      parseMail pm = Except.ok ⟨info.addr, sv, trim_end b⟩) := by
  constructor
  · intro hsub h
    simp only [parseMail, hsub, List.isEmpty_nil, if_true] at h
    split at h
    · simp at h
    split at h
    · simp at h
    split at h
    · simp at h
    split at h
    · simp at h
    split at h
    · simp at h
    split at h
    · simp at h
    simp at h
  · intro fv info rest sv b hsub hF hA hS hB
    simp only [parseMail, hsub, List.isEmpty_nil, if_true, hF, hA,
      List.head?_cons, hS, hB]

/-- Witness for claim C9: a single-part text/html message parses with
the html text as its body and does not raise the no-plain-text-part
error. -/
theorem parse_single_part_no_plaintext_error_witness :
    parseMail (ParsedMail.mk [("From", "user@example.com"), ("Subject", "hi")]
        ⟨"text/html"⟩ (Except.ok "<b>x</b>\n") []) ≠
      Except.error (ParseErr.strError "no text/plain parts") ∧
    parseMail (ParsedMail.mk [("From", "user@example.com"), ("Subject", "hi")]
        ⟨"text/html"⟩ (Except.ok "<b>x</b>\n") []) =
      Except.ok ⟨"user@example.com", "hi", trim_end "<b>x</b>\n"⟩ := by
  constructor
  · exact (parse_single_part_no_plaintext_error
      (ParsedMail.mk [("From", "user@example.com"), ("Subject", "hi")]
        ⟨"text/html"⟩ (Except.ok "<b>x</b>\n") [])).1 rfl
  · exact (parse_single_part_no_plaintext_error
      (ParsedMail.mk [("From", "user@example.com"), ("Subject", "hi")]
        ⟨"text/html"⟩ (Except.ok "<b>x</b>\n") [])).2
      "user@example.com" ⟨none, "user@example.com"⟩ [] "hi" "<b>x</b>\n"
      rfl (by decide) (by decide) (by decide) rfl

/-- Claim C10: parse is total and deterministic on every input byte
sequence: it always returns either a Message or an error, and equal
inputs give equal results. -/
theorem parse_total_deterministic (raw : List Nat) :
    ((∃ m, parse raw = Except.ok m) ∨ (∃ e, parse raw = Except.error e)) ∧
    ∀ raw2, raw = raw2 → parse raw = parse raw2 := by
  constructor
  · cases h : parse raw with
    | ok m => exact Or.inl ⟨m, rfl⟩
    | error e => exact Or.inr ⟨e, rfl⟩
  · intro raw2 h
    rw [h]

/-- Witness for claim C10 at a concrete two-byte input. -/
theorem parse_total_deterministic_witness :
    ((∃ m, parse [70, 10] = Except.ok m) ∨
     (∃ e, parse [70, 10] = Except.error e)) ∧
    parse [70, 10] = parse [70, 10] :=
  ⟨(parse_total_deterministic [70, 10]).1,
   (parse_total_deterministic [70, 10]).2 [70, 10] rfl⟩

/-- Claim C1: when the selected folder contains a message whose raw
bytes fail to parse, the whole call aborts with a single failure (the
unwrap panic raised inside the fetch loop): no list of Messages,
partial or complete, is ever returned, and the failing message is not
skipped. -/
theorem read_mail_all_or_nothing (mb : MyMailbox) (w : World)
    (folder : List ServerMsg) (m : ServerMsg) (e : ParseErr)
    (hc : w.connectOk = true) (hl : w.loginOk = true)
    (hf : lookupFolder w mb.selection = some folder)
    (hnd : (folder.map (fun x => x.uid)).Nodup)
    (hm : m ∈ folder) (hp : parse m.raw = Except.error e) :
    (∃ r, (read_mail mb w).1 = RunResult.panic r) ∧
    ∀ msgs, (read_mail mb w).1 ≠ RunResult.ok msgs := by
  have hmemf : m ∈ folder.filter (fun x => x.uid = m.uid) :=
    List.mem_filter.mpr ⟨hm, by simp⟩
  rcases hfl : folder.filter (fun x => x.uid = m.uid) with _ | ⟨a, l⟩
  · rw [hfl] at hmemf
    simp at hmemf
  · have hhead : (folder.filter (fun x => x.uid = m.uid)).head? = some a := by
      rw [hfl]
      rfl
    have hamem : a ∈ folder.filter (fun x => x.uid = m.uid) := by
      rw [hfl]
      exact List.mem_cons_self a l
    have ha2 : a ∈ folder ∧ a.uid = m.uid := by
      have hmf := List.mem_filter.mp hamem
      exact ⟨hmf.1, by simpa using hmf.2⟩
    have haem : a = m := List.inj_on_of_nodup_map hnd ha2.1 hm ha2.2
    rw [haem] at hhead
    have hmm : m.uid ∈ folder.map (fun x => x.uid) :=
      List.mem_map.mpr ⟨m, hm, rfl⟩
    obtain ⟨r, hr⟩ :=
      fetchLoop_fail m.uid m e (folder.map (fun x => x.uid)) folder hmm hhead hp
    rcases hloop : fetchLoop "BODY.PEEK[]" (folder.map (fun x => x.uid)) folder
      with ⟨res, f2⟩
    rw [hloop] at hr
    simp only at hr
    subst hr
    have hread : (read_mail mb w).1 = RunResult.panic r := by
      simp [read_mail, hc, hl, hf, hloop]
    refine ⟨⟨r, hread⟩, ?_⟩
    intro msgs hcon
    rw [hread] at hcon
    exact RunResult.noConfusion hcon

/-- Witness for claim C1: a folder with one well-formed and one
malformed message makes the whole call abort; in particular the result
is never the empty success list. -/
theorem read_mail_all_or_nothing_witness :
    (∃ r, (read_mail MyMailbox.default
        (World.mk true true [("INBOX",
          [ServerMsg.mk 1 [70, 58, 32, 97, 64, 98, 10] false,
           ServerMsg.mk 2 [120, 10, 10] false])])).1 = RunResult.panic r) ∧
    (read_mail MyMailbox.default
        (World.mk true true [("INBOX",
          [ServerMsg.mk 1 [70, 58, 32, 97, 64, 98, 10] false,
           ServerMsg.mk 2 [120, 10, 10] false])])).1 ≠ RunResult.ok [] := by
  have h := read_mail_all_or_nothing MyMailbox.default
    (World.mk true true [("INBOX",
      [ServerMsg.mk 1 [70, 58, 32, 97, 64, 98, 10] false,
       ServerMsg.mk 2 [120, 10, 10] false])])
    [ServerMsg.mk 1 [70, 58, 32, 97, 64, 98, 10] false,
     ServerMsg.mk 2 [120, 10, 10] false]
    (ServerMsg.mk 2 [120, 10, 10] false)
    (ParseErr.mailparseError "malformed header line")
    rfl rfl (by decide) (by decide) (by decide) (by decide)
  exact ⟨h.1, h.2 []⟩

/-- Claim C2: read_mail fetches with the peek query BODY.PEEK[], so the
server state (in particular every read/unread flag) is exactly the same
after the call as before it, and a peek fetch never changes the folder;
repeated runs therefore leave the mailbox unchanged. -/
theorem read_mail_peek_preserves_state (mb : MyMailbox) (w : World) :
    (read_mail mb w).2.1 = w ∧
    ∀ folder uid, (uid_fetch folder uid "BODY.PEEK[]").2 = folder := by
  constructor
  · obtain ⟨wc, wl, wf⟩ := w
    unfold read_mail
    split
    · rfl
    split
    · rfl
    split
    · rfl
    rename_i folder heq
    rcases hloop : fetchLoop "BODY.PEEK[]" (folder.map (fun m => m.uid)) folder
      with ⟨res, f2⟩
    have hf2 : f2 = folder := by
      have := fetchLoop_peek_state (folder.map (fun m => m.uid)) folder
      rw [hloop] at this
      exact this
    have hstore : storeFolder (World.mk wc wl wf).folders mb.selection folder =
        (World.mk wc wl wf).folders :=
      storeFolder_lookup _ _ _ heq
    subst hf2
    cases res <;> simp [hloop, hstore]
  · intro folder uid
    rw [uid_fetch_peek]

/-- Claim C7: on a folder with zero messages (connect, login and select
succeeding), read_mail returns the empty message list, not an error,
and logs out. -/
theorem read_mail_empty_folder (mb : MyMailbox) (w : World)
    (hc : w.connectOk = true) (hl : w.loginOk = true)
    (hf : lookupFolder w mb.selection = some []) :
    read_mail mb w = (RunResult.ok [], w, true) := by
  obtain ⟨wc, wl, wf⟩ := w
  simp only at hc hl
  subst hc
  subst hl
  have hstore : storeFolder wf mb.selection [] = wf :=
    storeFolder_lookup _ _ _ hf
  simp [read_mail, hf, fetchLoop, hstore]

/-- Witness for claim C7: the default configuration against a server
whose INBOX is empty yields the empty list and a clean logout. -/
theorem read_mail_empty_folder_witness :
    read_mail MyMailbox.default (World.mk true true [("INBOX", [])]) =
      (RunResult.ok [], World.mk true true [("INBOX", [])], true) :=
  read_mail_empty_folder MyMailbox.default (World.mk true true [("INBOX", [])])
    rfl rfl (by decide)

/-- Counterexample for claim C8: an execution that reaches the fetch
loop (connect, login and select all succeed) but aborts on a malformed
message does not log out, so logout is not performed regardless of
fetch success. -/
theorem read_mail_no_logout_on_failure_cex :
    (World.mk true true [("INBOX",
      [ServerMsg.mk 1 [120, 10, 10] false])]).connectOk = true ∧
    (World.mk true true [("INBOX",
      [ServerMsg.mk 1 [120, 10, 10] false])]).loginOk = true ∧
    lookupFolder (World.mk true true [("INBOX",
      [ServerMsg.mk 1 [120, 10, 10] false])]) MyMailbox.default.selection =
      some [ServerMsg.mk 1 [120, 10, 10] false] ∧
    (read_mail MyMailbox.default (World.mk true true [("INBOX",
      [ServerMsg.mk 1 [120, 10, 10] false])])).2.2 = false := by
  refine ⟨rfl, rfl, by decide, by decide⟩

/-- Claim C8 (amended): the session is logged out exactly when the whole
call succeeds with a message list; when the fetch loop aborts on a
failing message, the function returns without logging out. -/
theorem read_mail_logout_iff_success (mb : MyMailbox) (w : World) :
    (read_mail mb w).2.2 = true ↔ ∃ msgs, (read_mail mb w).1 = RunResult.ok msgs := by
  unfold read_mail
  split
  · simp
  split
  · simp
  split
  · simp
  rename_i folder heq
  rcases hloop : fetchLoop "BODY.PEEK[]" (folder.map (fun m => m.uid)) folder
    with ⟨res, f2⟩
  cases res <;> simp [hloop]
